import Mathlib

-- Verification of internal/build/imgsrc/docker.go: daemon-mode flags, the
-- docker client factory, remote-builder endpoint resolution, the readiness
-- poller (waitForDaemon), and deployment-tag cleanup.
--
-- Machine integers: the Go values involved are tiny bit flags and counters,
-- far from any overflow, so Nat is used directly. Time is modelled in seconds
-- as rationals; the float arithmetic of the backoff library is modelled over
-- the rationals (the claims at stake do not depend on float rounding). The
-- random jitter draw and the collaborator outcomes (ping results, API
-- responses) are passed in explicitly as inputs.

-- ===== DockerDaemonType (docker.go lines 91-136) =====

/-- Go: `type DockerDaemonType int`, a bit-flag set. -/
abbrev DockerDaemonType := Nat

/-- Go: `DockerDaemonTypeLocal DockerDaemonType = 1 << iota` (iota = 0). -/
def DockerDaemonTypeLocal : DockerDaemonType := 1

/-- Go: second member of the iota block, `1 << 1`. -/
def DockerDaemonTypeRemote : DockerDaemonType := 2

/-- Go: third member of the iota block, `1 << 2`. -/
def DockerDaemonTypeNone : DockerDaemonType := 4

/-- Go: `NewDockerDaemonType(allowLocal, allowRemote bool)`. Note the
accumulator starts from `DockerDaemonTypeNone`, not from zero. -/
def NewDockerDaemonType (allowLocal allowRemote : Bool) : DockerDaemonType :=
  let daemonType := DockerDaemonTypeNone
  let daemonType := if allowLocal then daemonType ||| DockerDaemonTypeLocal else daemonType
  let daemonType := if allowRemote then daemonType ||| DockerDaemonTypeRemote else daemonType
  daemonType

/-- Go: `(t & DockerDaemonTypeLocal) != 0`. -/
def DockerDaemonType.AllowLocal (t : DockerDaemonType) : Bool :=
  (t &&& DockerDaemonTypeLocal) != 0

/-- Go: `(t & DockerDaemonTypeRemote) != 0`. -/
def DockerDaemonType.AllowRemote (t : DockerDaemonType) : Bool :=
  (t &&& DockerDaemonTypeRemote) != 0

/-- Go: `(t & DockerDaemonTypeNone) != 0`. -/
def DockerDaemonType.AllowNone (t : DockerDaemonType) : Bool :=
  (t &&& DockerDaemonTypeNone) != 0

/-- Go: `t == DockerDaemonTypeLocal` (equality with the constant, not a bit test). -/
def DockerDaemonType.IsLocal (t : DockerDaemonType) : Bool :=
  t == DockerDaemonTypeLocal

/-- Go: `t == DockerDaemonTypeRemote`. -/
def DockerDaemonType.IsRemote (t : DockerDaemonType) : Bool :=
  t == DockerDaemonTypeRemote

/-- Go: `t == DockerDaemonTypeNone`. -/
def DockerDaemonType.IsNone (t : DockerDaemonType) : Bool :=
  t == DockerDaemonTypeNone

/-- Go: `!t.IsNone()`. -/
def DockerDaemonType.IsAvailable (t : DockerDaemonType) : Bool :=
  !(t.IsNone)

-- ===== dockerClientFactory buildFn memoization (docker.go lines 53-71) =====

-- The remote-mode factory closure holds `cachedDocker`; each call returns the
-- cache when set, otherwise invokes newRemoteDockerClient once and caches the
-- client only on success. The client handle is modelled as a Nat; the
-- collaborator newRemoteDockerClient is modelled as a stream of outcomes
-- `remotes : Nat -> Except String Nat` indexed by how many times it has been
-- invoked so far.

/-- Effect of one buildFn call on the closure state (cache contents,
collaborator-invocation count). Mirrors docker.go lines 60-68: a call with a
filled cache touches nothing; a call with an empty cache invokes the
collaborator, caching the client only on success. -/
def buildFnCallsStep (remotes : Nat → Except String Nat) (st : Option Nat × Nat) :
    Option Nat × Nat :=
  match st.1 with
  | some c => (some c, st.2)
  | none =>
    match remotes st.2 with
    | Except.error _ => (none, st.2 + 1)
    | Except.ok c => (some c, st.2 + 1)

/-- Cache contents and collaborator-invocation count after `n` calls to the
remote factory's buildFn (closure state `cachedDocker` of docker.go
lines 55-69). -/
def buildFnCalls (remotes : Nat → Except String Nat) : Nat → Option Nat × Nat
  | 0 => (none, 0)
  | n + 1 => buildFnCallsStep remotes (buildFnCalls remotes n)

/-- Result of call number `n` (0-indexed) to the remote factory's buildFn,
paired with whether that call invoked newRemoteDockerClient. -/
def buildFnCall (remotes : Nat → Except String Nat) (n : Nat) : Except String Nat × Bool :=
  let st := buildFnCalls remotes n
  match st.1 with
  | some c => (Except.ok c, false)
  | none => (remotes st.2, true)

-- ===== remoteBuilderURL (docker.go lines 220-243) =====

/-- Hostname and port extracted from a parsed URL, as by Go's
`(*url.URL).Hostname()` and `(*url.URL).Port()`; `port = ""` when absent. -/
structure ParsedURL where
  hostname : String
  port : String
deriving DecidableEq

/-- Helper: split a character list at every occurrence of `c`. -/
def splitOnCharAux (c : Char) : List Char → List Char → List (List Char)
  | [], acc => [acc.reverse]
  | x :: xs, acc =>
    if x = c then acc.reverse :: splitOnCharAux c xs []
    else splitOnCharAux c xs (x :: acc)

/-- Helper: split a character list at every occurrence of `c`. -/
def splitOnChar (c : Char) (l : List Char) : List (List Char) :=
  splitOnCharAux c l []

/-- Helper: drop everything up to and including the first "://". -/
def dropScheme : List Char → Option (List Char)
  | ':' :: '/' :: '/' :: rest => some rest
  | _ :: rest => dropScheme rest
  | [] => none

/-- Modelled from the Go standard library: `url.Parse` followed by
`Hostname()` and `Port()`, for URLs of the shape `scheme://host[:port][/...]`
(no user info, no bracketed IPv6 hosts), which covers the remote builder URLs
this resolver receives. `Port()` yields the digits after the last colon of the
authority, or the empty string when no port is present; a non-numeric port is
a parse error, as in `url.Parse`. -/
def urlHostPort (rawURL : String) : Except String ParsedURL :=
  match dropScheme rawURL.toList with
  | none => Except.error "missing scheme in remote builder url"
  | some rest =>
    let authority := rest.takeWhile (fun c => c ≠ '/')
    match splitOnChar ':' authority with
    | [h] => Except.ok ⟨String.mk h, ""⟩
    | [h, p] =>
      if p.all Char.isDigit then Except.ok ⟨String.mk h, String.mk p⟩
      else Except.error "invalid port in remote builder url"
    | _ => Except.error "invalid host in remote builder url"

/-- Modelled from the Go standard library: `net.JoinHostPort` brackets the
host when it contains a colon. -/
def joinHostPort (host port : String) : String :=
  if host.toList.contains ':' then "[" ++ host ++ "]:" ++ port
  else host ++ ":" ++ port

/-- Go: `remoteBuilderURL(apiClient, appName)` (docker.go lines 220-243).
`flyRemoteBuilderHost` is the value of the environment variable
FLY_REMOTE_BUILDER_HOST; `ensureRemoteBuilder` is the outcome of the
provisioning collaborator `apiClient.EnsureRemoteBuilder(appName)`, as the
pair (rawURL, app.Name). -/
def remoteBuilderURL (flyRemoteBuilderHost : String)
    (ensureRemoteBuilder : Except String (String × String)) :
    Except String (String × String) :=
  if flyRemoteBuilderHost ≠ "" then Except.ok (flyRemoteBuilderHost, "")
  else
    match ensureRemoteBuilder with
    | Except.error e => Except.error ("could not create remote builder: " ++ e)
    | Except.ok (rawURL, appName) =>
      match urlHostPort rawURL with
      | Except.error e => Except.error ("error parsing remote builder url: " ++ e)
      | Except.ok u =>
        let port := if u.port = "" then "10000" else u.port
        Except.ok ("tcp://" ++ joinHostPort u.hostname port, appName)

-- ===== newRemoteDockerClient orchestration (docker.go lines 155-218) =====

/-- Outcome of newRemoteDockerClient together with which collaborators ran:
`waitedForVM` records whether monitor.WaitForRunningVM was invoked, `polled`
whether waitForDaemon was reached. -/
structure RemoteClientTrace where
  result : Except String Unit
  waitedForVM : Bool
  polled : Bool

/-- Go: the orchestration of `newRemoteDockerClient` (docker.go lines
190-211): when the resolved logical app name is non-empty, wait for the
remote builder VM to run (error or a false launched flag are terminal),
then in every non-terminal case run waitForDaemon. `vmWait` is the outcome
of monitor.WaitForRunningVM and `daemonWait` the outcome of waitForDaemon,
passed in as collaborator results. -/
def newRemoteDockerClient (flyRemoteBuilderHost : String)
    (ensureRemoteBuilder : Except String (String × String))
    (vmWait : Except String Bool) (daemonWait : Except String Unit) :
    RemoteClientTrace :=
  match remoteBuilderURL flyRemoteBuilderHost ensureRemoteBuilder with
  | Except.error e => ⟨Except.error e, false, false⟩
  | Except.ok hostApp =>
    if hostApp.2 ≠ "" then
      match vmWait with
      | Except.error e => ⟨Except.error ("Error waiting for remote builder app: " ++ e), true, false⟩
      | Except.ok launched =>
        if !launched then ⟨Except.error "remote builder app unavailable", true, false⟩
        else ⟨daemonWait, true, true⟩
    else ⟨daemonWait, false, true⟩

-- ===== clearDeploymentTags (docker.go lines 311-329) =====

/-- Listed docker image: only its repo tags matter here. -/
structure DockerImage where
  repoTags : List String
deriving DecidableEq

/-- Go: `clearDeploymentTags` (docker.go lines 311-329). `listing` is the
outcome of docker.ImageList, `removeImage` the outcome of docker.ImageRemove
per tag. The function returns the listing error when listing fails; otherwise
it attempts every removal, logging and swallowing individual failures, and
returns nil. The second component is the trace of attempted removals with
their outcomes. -/
def clearDeploymentTags (listing : Except String (List DockerImage))
    (removeImage : String → Except String Unit) :
    Except String Unit × List (String × Except String Unit) :=
  match listing with
  | Except.error e => (Except.error e, [])
  | Except.ok images =>
    (Except.ok (), images.flatMap (fun image => image.repoTags.map (fun t => (t, removeImage t))))

-- ===== Claim theorems: C4, C9, C5, C6, C8, C10 =====

/-- Claim C4, counterexample: the claim asserts that (true, false) yields a
mode with IsLocal true, but the code starts the accumulator at
DockerDaemonTypeNone, so NewDockerDaemonType true false = 5 while IsLocal
compares against the constant 1: IsLocal is false there. -/
theorem claim_C4_cex :
    DockerDaemonType.IsLocal (NewDockerDaemonType true false) = false := by
  decide

/-- Claim C4 (amended): for every pair of booleans, AllowLocal and AllowRemote
of the constructed DaemonMode equal the respective inputs; IsAvailable is
false on the (false, false) mode and true on the local-only (true, false)
mode, which allows local and not remote — but IsLocal on it is false, since
the constructed value retains the None bit. -/
theorem claim_C4_daemon_type_construction :
    (∀ allowLocal allowRemote : Bool,
      DockerDaemonType.AllowLocal (NewDockerDaemonType allowLocal allowRemote) = allowLocal ∧
      DockerDaemonType.AllowRemote (NewDockerDaemonType allowLocal allowRemote) = allowRemote) ∧
    DockerDaemonType.IsAvailable (NewDockerDaemonType false false) = false ∧
    DockerDaemonType.AllowLocal (NewDockerDaemonType true false) = true ∧
    DockerDaemonType.AllowRemote (NewDockerDaemonType true false) = false ∧
    DockerDaemonType.IsAvailable (NewDockerDaemonType true false) = true ∧
    DockerDaemonType.IsLocal (NewDockerDaemonType true false) = false := by
  refine ⟨?_, by decide, by decide, by decide, by decide, by decide⟩
  decide

/-- Claim C9: every value constructed by NewDockerDaemonType carries the None
flag bit, so AllowNone is true on all four constructions, and IsLocal and
IsRemote — equality tests against constants lacking the None bit — are false
on all of them. -/
theorem claim_C9_none_bit_always_set :
    ∀ allowLocal allowRemote : Bool,
      DockerDaemonType.AllowNone (NewDockerDaemonType allowLocal allowRemote) = true ∧
      DockerDaemonType.IsLocal (NewDockerDaemonType allowLocal allowRemote) = false ∧
      DockerDaemonType.IsRemote (NewDockerDaemonType allowLocal allowRemote) = false := by
  decide

/-- Claim C5, counterexample: after a failed first call the factory caches
nothing, so the second call re-invokes newRemoteDockerClient (invocation flag
true) and can return a success instead of the same terminal error —
contradicting the claim that repeated calls after a failure return the same
error without re-running provisioning. -/
theorem claim_C5_cex :
    buildFnCall (fun k => if k = 0 then Except.error "boom" else Except.ok 7) 0 =
      (Except.error "boom", true) ∧
    buildFnCall (fun k => if k = 0 then Except.error "boom" else Except.ok 7) 1 =
      (Except.ok 7, true) := by
  constructor <;> rfl

/-- Claim C5 (amended): when the first buildFn call succeeds with client `c`,
every later call returns the same handle without invoking
newRemoteDockerClient again; when the first call fails, the error is returned
to the caller but not cached, and the next call invokes the collaborator
again (so it may succeed rather than repeat the error). -/
theorem claim_C5_factory_memoization (remotes : Nat → Except String Nat) (c : Nat)
    (hok : remotes 0 = Except.ok c) :
    buildFnCall remotes 0 = (Except.ok c, true) ∧
    (∀ n, buildFnCall remotes (n + 1) = (Except.ok c, false)) ∧
    (∀ remotes' : Nat → Except String Nat, ∀ e : String,
      remotes' 0 = Except.error e →
      buildFnCall remotes' 0 = (Except.error e, true) ∧
      buildFnCall remotes' 1 = (remotes' 1, true)) := by
  have hcalls : ∀ n, buildFnCalls remotes (n + 1) = (some c, 1) := by
    intro n
    induction n with
    | zero => simp [buildFnCalls, buildFnCallsStep, hok]
    | succ m ih =>
      rw [buildFnCalls, ih]
      simp [buildFnCallsStep]
  refine ⟨by simp [buildFnCall, buildFnCalls, hok], ?_, ?_⟩
  · intro n
    simp [buildFnCall, hcalls n]
  · intro remotes' e herr
    constructor
    · simp [buildFnCall, buildFnCalls, buildFnCallsStep, herr]
    · simp [buildFnCall, buildFnCalls, buildFnCallsStep, herr]

/-- Claim C5 witness: instantiation of the memoization theorem on the
collaborator stream that returns client 42 on its first invocation. -/
theorem claim_C5_factory_memoization_witness :
    buildFnCall (fun _ => Except.ok 42) 0 = (Except.ok 42, true) ∧
    buildFnCall (fun _ => Except.ok 42) 1 = (Except.ok 42, false) ∧
    buildFnCall (fun k => if k = 0 then Except.error "down" else Except.ok 9) 0 =
      (Except.error "down", true) := by
  have h := claim_C5_factory_memoization (fun _ => Except.ok 42) 42 rfl
  exact ⟨h.1, h.2.1 0, (h.2.2 (fun k => if k = 0 then Except.error "down" else Except.ok 9)
    "down" rfl).1⟩

/-- Claim C6: with no override host set, a provisioned URL parsing to
hostname `h` and port `p` resolves to `tcp://` ++ joinHostPort of `h` and `p`
with the port defaulting to 10000 when absent; concretely
`https://example.com` gives `tcp://example.com:10000` and
`https://example.com:9999` gives `tcp://example.com:9999`; a provisioning
failure or a parse failure is returned as an error. -/
theorem claim_C6_endpoint_resolution (rawURL appName : String) (u : ParsedURL)
    (hparse : urlHostPort rawURL = Except.ok u) :
    remoteBuilderURL "" (Except.ok (rawURL, appName)) =
      Except.ok ("tcp://" ++ joinHostPort u.hostname
        (if u.port = "" then "10000" else u.port), appName) ∧
    (∀ app2 : String, remoteBuilderURL "" (Except.ok ("https://example.com", app2)) =
      Except.ok ("tcp://example.com:10000", app2)) ∧
    (∀ app2 : String, remoteBuilderURL "" (Except.ok ("https://example.com:9999", app2)) =
      Except.ok ("tcp://example.com:9999", app2)) ∧
    (∀ e : String, remoteBuilderURL "" (Except.error e) =
      Except.error ("could not create remote builder: " ++ e)) ∧
    (∀ raw app2 err : String, urlHostPort raw = Except.error err →
      remoteBuilderURL "" (Except.ok (raw, app2)) =
        Except.error ("error parsing remote builder url: " ++ err)) := by
  refine ⟨?_, ?_, ?_, ?_, ?_⟩
  · simp [remoteBuilderURL, hparse]
  · intro app2
    show remoteBuilderURL "" (Except.ok ("https://example.com", app2)) = _
    have hp : urlHostPort "https://example.com" = Except.ok ⟨"example.com", ""⟩ := by rfl
    simp [remoteBuilderURL, hp, joinHostPort]
  · intro app2
    have hp : urlHostPort "https://example.com:9999" = Except.ok ⟨"example.com", "9999"⟩ := by rfl
    simp [remoteBuilderURL, hp, joinHostPort]
  · intro e
    simp [remoteBuilderURL]
  · intro raw app2 err hbad
    simp [remoteBuilderURL, hbad]

/-- Claim C6 witness: instantiation on the concrete provisioned URL
`https://example.com:9999`. -/
theorem claim_C6_endpoint_resolution_witness :
    remoteBuilderURL "" (Except.ok ("https://example.com:9999", "builder-app")) =
      Except.ok ("tcp://" ++ joinHostPort "example.com"
        (if "9999" = "" then "10000" else "9999"), "builder-app") :=
  (claim_C6_endpoint_resolution "https://example.com:9999" "builder-app"
    ⟨"example.com", "9999"⟩ rfl).1

/-- Claim C8: a non-empty FLY_REMOTE_BUILDER_HOST is returned verbatim with an
empty logical app name; the result does not depend on the provisioning
collaborator (it is not called); and because the app name is empty the
remote-VM running wait is skipped while the readiness poller still runs. -/
theorem claim_C8_override_host (flyRemoteBuilderHost : String)
    (ensure ensure2 : Except String (String × String))
    (vmWait : Except String Bool) (daemonWait : Except String Unit)
    (hne : flyRemoteBuilderHost ≠ "") :
    remoteBuilderURL flyRemoteBuilderHost ensure = Except.ok (flyRemoteBuilderHost, "") ∧
    remoteBuilderURL flyRemoteBuilderHost ensure = remoteBuilderURL flyRemoteBuilderHost ensure2 ∧
    (newRemoteDockerClient flyRemoteBuilderHost ensure vmWait daemonWait).waitedForVM = false ∧
    (newRemoteDockerClient flyRemoteBuilderHost ensure vmWait daemonWait).polled = true ∧
    (newRemoteDockerClient flyRemoteBuilderHost ensure vmWait daemonWait).result = daemonWait := by
  have hres : remoteBuilderURL flyRemoteBuilderHost ensure =
      Except.ok (flyRemoteBuilderHost, "") := by
    simp [remoteBuilderURL, hne]
  refine ⟨hres, ?_, ?_, ?_, ?_⟩
  · simp [remoteBuilderURL, hne]
  · simp [newRemoteDockerClient, hres]
  · simp [newRemoteDockerClient, hres]
  · simp [newRemoteDockerClient, hres]

/-- Claim C8 witness: instantiation with override host "tcp://10.0.0.1:10000"
and a provisioning collaborator that would fail if consulted. -/
theorem claim_C8_override_host_witness :
    remoteBuilderURL "tcp://10.0.0.1:10000" (Except.error "api down") =
      Except.ok ("tcp://10.0.0.1:10000", "") ∧
    (newRemoteDockerClient "tcp://10.0.0.1:10000" (Except.error "api down")
      (Except.error "vm wait not run") (Except.ok ())).waitedForVM = false := by
  have h := claim_C8_override_host "tcp://10.0.0.1:10000" (Except.error "api down")
    (Except.ok ("https://x", "y")) (Except.error "vm wait not run") (Except.ok ())
    (by decide)
  exact ⟨h.1, h.2.2.1⟩

/-- Claim C10: clearDeploymentTags returns an error exactly when listing
fails; with a successful listing it attempts the removal of every tag of
every listed image and returns ok even when removals fail — concretely, a
listing with one tag whose removal fails still yields ok, so an ok result
does not imply every matching tag was removed. -/
theorem claim_C10_clear_tags_swallows_removal_errors :
    (∀ e : String, ∀ removeImage : String → Except String Unit,
      (clearDeploymentTags (Except.error e) removeImage).1 = Except.error e) ∧
    (∀ images : List DockerImage, ∀ removeImage : String → Except String Unit,
      (clearDeploymentTags (Except.ok images) removeImage).1 = Except.ok () ∧
      (clearDeploymentTags (Except.ok images) removeImage).2 =
        images.flatMap (fun image => image.repoTags.map (fun t => (t, removeImage t)))) ∧
    clearDeploymentTags (Except.ok [⟨["registry.fly.io/app:tag"]⟩])
        (fun _ => Except.error "remove failed") =
      (Except.ok (), [("registry.fly.io/app:tag", Except.error "remove failed")]) := by
  refine ⟨fun e removeImage => rfl, fun images removeImage => ⟨rfl, rfl⟩, rfl⟩

-- ===== waitForDaemon, the readiness poller (docker.go lines 250-309) =====

/-- Ping error as the poller classifies it: `unauthorized` is the truth value
of Go's `errors.Is(err, unauthorizedError)` for this error. -/
structure PingError where
  unauthorized : Bool
deriving DecidableEq

/-- Go: `isUnauthorized` (docker.go lines 83-85). -/
def isUnauthorized (e : PingError) : Bool := e.unauthorized

/-- Go: `isRetyableError` (docker.go lines 87-89), sic. -/
def isRetyableError (e : PingError) : Bool := !(isUnauthorized e)

/-- Outcome of one `client.Ping(ctx)` call. -/
inductive PingResult where
  | success
  | failure (e : PingError)
deriving DecidableEq

/-- Go: configured backoff minimum, 200ms, in seconds. -/
def backoffMin : ℚ := 1/5

/-- Go: configured backoff maximum, 2s, in seconds. -/
def backoffMax : ℚ := 2

/-- Go: configured backoff factor 1.2. -/
def backoffFactor : ℚ := 6/5

/-- Modelled from the backoff library (jpillora/backoff) as configured in
docker.go lines 253-259: `b.Duration()` with attempt counter `attempt` and
`rand.Float64()` draw `jitterRand`. It computes min * factor^attempt, applies
jitter as rand*(durf-min)+min, then clamps into [min, max]. The library's
float64 arithmetic is modelled over the rationals. -/
def backoffDuration (attempt : ℕ) (jitterRand : ℚ) : ℚ :=
  let durf := backoffMin * backoffFactor ^ attempt
  let jittered := jitterRand * (durf - backoffMin) + backoffMin
  if jittered < backoffMin then backoffMin
  else if backoffMax < jittered then backoffMax
  else jittered

/-- Loop state of waitForDaemon just before an iteration spawns its ping:
`now` is the wall clock in seconds from entry, `i` the index of the next ping
to issue, `consecutiveSuccesses` and `healthyStart` the Go locals of the same
names, `attempt` the backoff generator's attempt counter. -/
structure PollState where
  now : ℚ
  i : ℕ
  consecutiveSuccesses : ℕ
  healthyStart : ℚ
  attempt : ℕ

/-- Result of waitForDaemon: nil after the stability window (ready), the ping
error itself when it is not retryable, or the deadline error message. -/
inductive PollResult where
  | ready
  | pingError (e : PingError)
  | timeout (msg : String)

/-- One loop iteration either exits with a result or continues in a new
state. -/
inductive StepResult where
  | done (r : PollResult)
  | cont (s : PollState)

/-- One iteration of the waitForDaemon loop (docker.go lines 264-306).
`P i` is the outcome and `D i` the duration of ping number `i`; `J i` is the
rand.Float64() draw consumed if iteration `i` sleeps. The iteration spawns
ping `s.i` at time `s.now`; it completes at `s.now + D s.i`. The select takes
the 5-minute deadline case when the ping does not complete strictly before
300s (Go picks randomly among simultaneously ready cases; the model resolves
that tie to the deadline). On a success with `consecutiveSuccesses == 0` the
code records `healthyStart = now` and resets the backoff; it exits ready once
`time.Since(healthyStart) > 3s`, else sleeps `b.Duration()`. On a retryable
failure it zeroes the streak and sleeps `b.Duration()`; a non-retryable
(unauthorized) failure is returned at once. Context cancellation is not
exercised by the claims and is not modelled. -/
def pollStep (P : ℕ → PingResult) (D J : ℕ → ℚ) (s : PollState) : StepResult :=
  let arrival := s.now + D s.i
  if 300 ≤ arrival then
    StepResult.done (PollResult.timeout "Could not ping remote builder within 5 minutes, aborting.")
  else
    match P s.i with
    | PingResult.success =>
      let hs := if s.consecutiveSuccesses = 0 then arrival else s.healthyStart
      let att := if s.consecutiveSuccesses = 0 then 0 else s.attempt
      if 3 < arrival - hs then StepResult.done PollResult.ready
      else StepResult.cont ⟨arrival + backoffDuration att (J s.i), s.i + 1,
        s.consecutiveSuccesses + 1, hs, att + 1⟩
    | PingResult.failure e =>
      if isRetyableError e = false then StepResult.done (PollResult.pingError e)
      else StepResult.cont ⟨arrival + backoffDuration s.attempt (J s.i), s.i + 1,
        0, s.healthyStart, s.attempt + 1⟩

/-- Initial loop state: clock at 0, ping 0 next, zero streak, zero-value
healthyStart, backoff attempt counter 0. -/
def pollInit : PollState := ⟨0, 0, 0, 0, 0⟩

/-- State just before iteration `k` of waitForDaemon, or none if the loop
already returned. -/
def pollTrace (P : ℕ → PingResult) (D J : ℕ → ℚ) : ℕ → Option PollState
  | 0 => some pollInit
  | k + 1 =>
    match pollTrace P D J k with
    | none => none
    | some s =>
      match pollStep P D J s with
      | StepResult.done _ => none
      | StepResult.cont s' => some s'

/-- Fuel-bounded run of the waitForDaemon loop from state `s`. -/
def pollRun (P : ℕ → PingResult) (D J : ℕ → ℚ) : ℕ → PollState → Option PollResult
  | 0, _ => none
  | n + 1, s =>
    match pollStep P D J s with
    | StepResult.done r => some r
    | StepResult.cont s' => pollRun P D J n s'

-- ===== Poller helper lemmas =====

/-- Helper: the backoff reset to attempt 0 makes the next duration exactly the
200ms minimum, for every jitter draw. -/
theorem backoffDuration_zero (j : ℚ) : backoffDuration 0 j = backoffMin := by
  simp [backoffDuration, backoffMin, backoffMax, backoffFactor]
  norm_num

/-- Helper: every backoff duration lies in [200ms, 2s]. -/
theorem backoffDuration_bounds (a : ℕ) (j : ℚ) :
    backoffMin ≤ backoffDuration a j ∧ backoffDuration a j ≤ backoffMax := by
  simp only [backoffDuration]
  split_ifs with h1 h2
  · exact ⟨le_refl _, by norm_num [backoffMin, backoffMax]⟩
  · exact ⟨by norm_num [backoffMin, backoffMax], le_refl _⟩
  · exact ⟨le_of_not_lt h1, le_of_not_lt h2⟩

/-- Helper: when the ping would complete at or after the 300s deadline, the
iteration returns the timeout error. -/
theorem pollStep_eq_timeout {P : ℕ → PingResult} {D J : ℕ → ℚ} {s : PollState}
    (h : (300 : ℚ) ≤ s.now + D s.i) :
    pollStep P D J s = StepResult.done
      (PollResult.timeout "Could not ping remote builder within 5 minutes, aborting.") := by
  simp only [pollStep]
  rw [if_pos h]

/-- Helper: a successful ping on a zero streak records healthyStart, resets
the backoff, and always continues (the window check compares arrival with
itself). The following sleep is exactly the 200ms minimum. -/
theorem pollStep_success_zero {P : ℕ → PingResult} {D J : ℕ → ℚ} {s : PollState}
    (hdl : s.now + D s.i < 300) (hs : P s.i = PingResult.success)
    (hcs : s.consecutiveSuccesses = 0) :
    pollStep P D J s = StepResult.cont
      ⟨s.now + D s.i + backoffMin, s.i + 1, 1, s.now + D s.i, 1⟩ := by
  simp only [pollStep]
  rw [if_neg (not_le.mpr hdl), hs]
  simp [hcs, backoffDuration_zero]

/-- Helper: a successful ping on a positive streak inside the stability
window keeps healthyStart and sleeps the next backoff duration. -/
theorem pollStep_success_pos {P : ℕ → PingResult} {D J : ℕ → ℚ} {s : PollState}
    (hdl : s.now + D s.i < 300) (hs : P s.i = PingResult.success)
    (hcs : s.consecutiveSuccesses ≠ 0)
    (hwin : ¬ 3 < s.now + D s.i - s.healthyStart) :
    pollStep P D J s = StepResult.cont
      ⟨s.now + D s.i + backoffDuration s.attempt (J s.i), s.i + 1,
        s.consecutiveSuccesses + 1, s.healthyStart, s.attempt + 1⟩ := by
  simp only [pollStep]
  rw [if_neg (not_le.mpr hdl), hs]
  simp [hcs, hwin]

/-- Helper: a successful ping on a positive streak past the stability window
declares readiness. -/
theorem pollStep_success_ready {P : ℕ → PingResult} {D J : ℕ → ℚ} {s : PollState}
    (hdl : s.now + D s.i < 300) (hs : P s.i = PingResult.success)
    (hcs : s.consecutiveSuccesses ≠ 0)
    (hwin : 3 < s.now + D s.i - s.healthyStart) :
    pollStep P D J s = StepResult.done PollResult.ready := by
  simp only [pollStep]
  rw [if_neg (not_le.mpr hdl), hs]
  simp [hcs, hwin]

/-- Helper: a non-retryable (unauthorized) ping failure returns that error. -/
theorem pollStep_failure_unauth {P : ℕ → PingResult} {D J : ℕ → ℚ} {s : PollState}
    {e : PingError} (hdl : s.now + D s.i < 300) (hf : P s.i = PingResult.failure e)
    (hu : isRetyableError e = false) :
    pollStep P D J s = StepResult.done (PollResult.pingError e) := by
  simp only [pollStep]
  rw [if_neg (not_le.mpr hdl), hf]
  simp [hu]

/-- Helper: a retryable ping failure zeroes the streak, advances the backoff,
and sleeps. -/
theorem pollStep_failure_retry {P : ℕ → PingResult} {D J : ℕ → ℚ} {s : PollState}
    {e : PingError} (hdl : s.now + D s.i < 300) (hf : P s.i = PingResult.failure e)
    (hr : isRetyableError e = true) :
    pollStep P D J s = StepResult.cont
      ⟨s.now + D s.i + backoffDuration s.attempt (J s.i), s.i + 1, 0,
        s.healthyStart, s.attempt + 1⟩ := by
  simp only [pollStep]
  rw [if_neg (not_le.mpr hdl), hf]
  simp [hr]

/-- Helper: a continuing iteration had its ping complete before the deadline,
advances the ping index by one, and sleeps some backoff duration. -/
theorem pollStep_cont_inv {P : ℕ → PingResult} {D J : ℕ → ℚ} {s s' : PollState}
    (h : pollStep P D J s = StepResult.cont s') :
    s.now + D s.i < 300 ∧ s'.i = s.i + 1 ∧
    ∃ att, s'.now = s.now + D s.i + backoffDuration att (J s.i) := by
  by_cases hdl : (300 : ℚ) ≤ s.now + D s.i
  · rw [pollStep_eq_timeout hdl] at h
    exact StepResult.noConfusion h
  · have hlt := not_le.mp hdl
    refine ⟨hlt, ?_⟩
    rcases hPi : P s.i with _ | e
    · by_cases hcs : s.consecutiveSuccesses = 0
      · rw [pollStep_success_zero hlt hPi hcs] at h
        injection h with h'
        rw [← h']
        exact ⟨rfl, 0, by rw [backoffDuration_zero]⟩
      · by_cases hwin : 3 < s.now + D s.i - s.healthyStart
        · rw [pollStep_success_ready hlt hPi hcs hwin] at h
          exact StepResult.noConfusion h
        · rw [pollStep_success_pos hlt hPi hcs hwin] at h
          injection h with h'
          rw [← h']
          exact ⟨rfl, s.attempt, rfl⟩
    · by_cases hr : isRetyableError e = true
      · rw [pollStep_failure_retry hlt hPi hr] at h
        injection h with h'
        rw [← h']
        exact ⟨rfl, s.attempt, rfl⟩
      · rw [pollStep_failure_unauth hlt hPi (by revert hr; cases isRetyableError e <;> simp)] at h
        exact StepResult.noConfusion h

/-- Helper: a finished iteration returned the timeout message, readiness, or
the unauthorized ping error of its ping. -/
theorem pollStep_done_inv {P : ℕ → PingResult} {D J : ℕ → ℚ} {s : PollState} {r : PollResult}
    (h : pollStep P D J s = StepResult.done r) :
    r = PollResult.timeout "Could not ping remote builder within 5 minutes, aborting." ∨
    r = PollResult.ready ∨
    ∃ e, P s.i = PingResult.failure e ∧ e.unauthorized = true ∧ r = PollResult.pingError e := by
  by_cases hdl : (300 : ℚ) ≤ s.now + D s.i
  · rw [pollStep_eq_timeout hdl] at h
    injection h with h'
    exact Or.inl h'.symm
  · have hlt := not_le.mp hdl
    rcases hPi : P s.i with _ | e
    · by_cases hcs : s.consecutiveSuccesses = 0
      · rw [pollStep_success_zero hlt hPi hcs] at h
        exact StepResult.noConfusion h
      · by_cases hwin : 3 < s.now + D s.i - s.healthyStart
        · rw [pollStep_success_ready hlt hPi hcs hwin] at h
          injection h with h'
          exact Or.inr (Or.inl h'.symm)
        · rw [pollStep_success_pos hlt hPi hcs hwin] at h
          exact StepResult.noConfusion h
    · by_cases hr : isRetyableError e = true
      · rw [pollStep_failure_retry hlt hPi hr] at h
        exact StepResult.noConfusion h
      · have hu : e.unauthorized = true := by
          revert hr
          simp [isRetyableError, isUnauthorized]
        rw [pollStep_failure_unauth hlt hPi
          (by simp [isRetyableError, isUnauthorized, hu])] at h
        injection h with h'
        exact Or.inr (Or.inr ⟨e, rfl, hu, h'.symm⟩)

/-- Helper: readiness can only be declared by a successful ping. -/
theorem pollStep_ready_needs_success {P : ℕ → PingResult} {D J : ℕ → ℚ} {s : PollState}
    (h : pollStep P D J s = StepResult.done PollResult.ready) :
    P s.i = PingResult.success := by
  rcases hPi : P s.i with _ | e
  · rfl
  · by_cases hdl : (300 : ℚ) ≤ s.now + D s.i
    · rw [pollStep_eq_timeout hdl] at h
      injection h with h'
      exact PollResult.noConfusion h'
    · have hlt := not_le.mp hdl
      by_cases hr : isRetyableError e = true
      · rw [pollStep_failure_retry hlt hPi hr] at h
        exact StepResult.noConfusion h
      · rw [pollStep_failure_unauth hlt hPi
          (by revert hr; cases isRetyableError e <;> simp)] at h
        injection h with h'
        exact PollResult.noConfusion h'


/-- Helper: the loop reaches iteration k+1 exactly when iteration k ran and
continued. -/
theorem pollTrace_succ_some {P : ℕ → PingResult} {D J : ℕ → ℚ} {k : ℕ} {s' : PollState} :
    pollTrace P D J (k + 1) = some s' ↔
    ∃ s, pollTrace P D J k = some s ∧ pollStep P D J s = StepResult.cont s' := by
  constructor
  · intro h
    rw [pollTrace] at h
    rcases htr : pollTrace P D J k with _ | s
    · simp only [htr] at h
      exact Option.noConfusion h
    · simp only [htr] at h
      rcases hst : pollStep P D J s with r | s₂
      · simp only [hst] at h
        exact Option.noConfusion h
      · simp only [hst, Option.some.injEq] at h
        exact ⟨s, rfl, by rw [hst, h]⟩
  · intro ⟨s, htr, hst⟩
    rw [pollTrace]
    simp only [htr, hst]

/-- Helper: nonnegative ping delays make every sleep advance the clock by at
least the 200ms backoff minimum, so the state before iteration k is at time
at least k times that minimum. -/
theorem pollTrace_now_lb {P : ℕ → PingResult} {D J : ℕ → ℚ}
    (hD : ∀ i, 0 ≤ D i) :
    ∀ k s, pollTrace P D J k = some s → (k : ℚ) * backoffMin ≤ s.now := by
  intro k
  induction k with
  | zero =>
    intro s htr
    injection htr with h'
    rw [← h']
    simp [pollInit]
  | succ m ih =>
    intro s htr
    obtain ⟨s₁, htr₁, hstep⟩ := pollTrace_succ_some.mp htr
    have h₁ := ih s₁ htr₁
    obtain ⟨_, _, att, hnow⟩ := pollStep_cont_inv hstep
    have hdur := (backoffDuration_bounds att (J s₁.i)).1
    have hDi := hD s₁.i
    rw [hnow]
    push_cast
    linarith

/-- Helper: running with enough fuel to reach a traced state continues the
run from that state. -/
theorem pollRun_shift {P : ℕ → PingResult} {D J : ℕ → ℚ} :
    ∀ k s, pollTrace P D J k = some s → ∀ m, pollRun P D J (k + m) pollInit = pollRun P D J m s := by
  intro k
  induction k with
  | zero =>
    intro s htr m
    injection htr with h'
    rw [← h']
    simp
  | succ n ih =>
    intro s htr m
    obtain ⟨s₁, htr₁, hstep⟩ := pollTrace_succ_some.mp htr
    have h₁ := ih s₁ htr₁ (m + 1)
    have harith : n + 1 + m = n + (m + 1) := by omega
    rw [harith, h₁, pollRun, hstep]

/-- Helper: extra fuel does not change an already returned result. -/
theorem pollRun_mono {P : ℕ → PingResult} {D J : ℕ → ℚ} {r : PollResult} :
    ∀ n s, pollRun P D J n s = some r → ∀ m, n ≤ m → pollRun P D J m s = some r := by
  intro n
  induction n with
  | zero =>
    intro s h
    rw [pollRun] at h
    exact Option.noConfusion h
  | succ n ih =>
    intro s h m hm
    rcases Nat.exists_eq_add_of_le hm with ⟨d, rfl⟩
    rw [pollRun] at h
    rcases hst : pollStep P D J s with r' | s₂
    · rw [hst] at h
      have harith : n + 1 + d = (n + d) + 1 := by omega
      rw [harith, pollRun, hst]
      exact h
    · rw [hst] at h
      have harith : n + 1 + d = (n + d) + 1 := by omega
      rw [harith, pollRun, hst]
      exact ih s₂ h (n + d) (by omega)

/-- Helper: an exhausted trace passed through an iteration that returned. -/
theorem pollTrace_none_done {P : ℕ → PingResult} {D J : ℕ → ℚ} :
    ∀ n, pollTrace P D J n = none →
      ∃ k s r, k < n ∧ pollTrace P D J k = some s ∧ pollStep P D J s = StepResult.done r := by
  intro n
  induction n with
  | zero =>
    intro h
    rw [pollTrace] at h
    exact Option.noConfusion h
  | succ m ih =>
    intro h
    rcases htr : pollTrace P D J m with _ | s
    · obtain ⟨k, s, r, hk, h₁, h₂⟩ := ih htr
      exact ⟨k, s, r, by omega, h₁, h₂⟩
    · rcases hst : pollStep P D J s with r | s₂
      · exact ⟨m, s, r, by omega, htr, hst⟩
      · rw [pollTrace] at h
        simp only [htr, hst] at h
        exact Option.noConfusion h

/-- Helper: with the jitter draw pinned at 1 the duration equals the clamped
pre-jitter envelope min * factor^attempt, which is non-decreasing in the
attempt counter. -/
theorem backoffDuration_envelope_mono (a : ℕ) :
    backoffDuration a 1 ≤ backoffDuration (a + 1) 1 := by
  have hident : ∀ b : ℕ, backoffDuration b 1 =
      (if backoffMin * backoffFactor ^ b < backoffMin then backoffMin
       else if backoffMax < backoffMin * backoffFactor ^ b then backoffMax
       else backoffMin * backoffFactor ^ b) := by
    intro b
    simp [backoffDuration]
  have hxy : backoffMin * backoffFactor ^ a ≤ backoffMin * backoffFactor ^ (a + 1) := by
    apply mul_le_mul_of_nonneg_left _ (by norm_num [backoffMin])
    exact pow_le_pow_right₀ (by norm_num [backoffFactor]) (Nat.le_succ a)
  have hminmax : backoffMin ≤ backoffMax := by norm_num [backoffMin, backoffMax]
  rw [hident a, hident (a + 1)]
  split_ifs <;> linarith

-- ===== Claim theorems: C1, C2, C3, C7 =====

/-- Claim C1: with every ping succeeding from the first one, readiness is only
declared when the ping's completion time exceeds the first success's arrival
(`D 0`, the recorded healthyStart) by more than 3 seconds — never earlier —
and the backoff generator is reset at the first success of the streak and
only there: the state after iteration 0 sleeps exactly the 200ms minimum and
the attempt counter thereafter equals the iteration index, never re-zeroed. -/
theorem claim_C1_ready_after_stability_window (P : ℕ → PingResult) (D J : ℕ → ℚ)
    (hP : ∀ i, P i = PingResult.success) :
    (∀ k s, pollTrace P D J k = some s → 1 ≤ k →
      s.healthyStart = D 0 ∧ s.consecutiveSuccesses = k ∧ s.attempt = k ∧ s.i = k) ∧
    (∀ k s, pollTrace P D J k = some s →
      pollStep P D J s = StepResult.done PollResult.ready → 3 < s.now + D s.i - D 0) ∧
    (∀ s, pollTrace P D J 1 = some s → s.now = D 0 + backoffMin ∧ s.attempt = 1) := by
  have hbase : ∀ s, pollTrace P D J 1 = some s →
      s.now = D 0 + backoffMin ∧ s.healthyStart = D 0 ∧
      s.consecutiveSuccesses = 1 ∧ s.attempt = 1 ∧ s.i = 1 := by
    intro s htr
    obtain ⟨s₀, htr₀, hstep⟩ := pollTrace_succ_some.mp htr
    rw [pollTrace] at htr₀
    injection htr₀ with h₀
    subst h₀
    have hdl : pollInit.now + D pollInit.i < 300 := (pollStep_cont_inv hstep).1
    rw [pollStep_success_zero hdl (hP _) rfl] at hstep
    injection hstep with h'
    rw [← h']
    refine ⟨?_, ?_, ?_, ?_, ?_⟩ <;> simp [pollInit]
  have hinv : ∀ m s, pollTrace P D J (m + 1) = some s →
      s.healthyStart = D 0 ∧ s.consecutiveSuccesses = m + 1 ∧
      s.attempt = m + 1 ∧ s.i = m + 1 := by
    intro m
    induction m with
    | zero =>
      intro s htr
      obtain ⟨_, h2, h3, h4, h5⟩ := hbase s htr
      exact ⟨h2, h3, h4, h5⟩
    | succ n ih =>
      intro s htr
      obtain ⟨s₁, htr₁, hstep⟩ := pollTrace_succ_some.mp htr
      obtain ⟨hhs, hcs, hatt, hi⟩ := ih s₁ htr₁
      have hdl := (pollStep_cont_inv hstep).1
      by_cases hwin : 3 < s₁.now + D s₁.i - s₁.healthyStart
      · rw [pollStep_success_ready hdl (hP _) (by rw [hcs]; omega) hwin] at hstep
        exact StepResult.noConfusion hstep
      · rw [pollStep_success_pos hdl (hP _) (by rw [hcs]; omega) hwin] at hstep
        injection hstep with h'
        rw [← h']
        exact ⟨hhs, by rw [hcs], by rw [hatt], by rw [hi]⟩
  refine ⟨?_, ?_, ?_⟩
  · intro k s htr hk
    rcases k with _ | m
    · omega
    · exact hinv m s htr
  · intro k s htr hready
    rcases k with _ | m
    · rw [pollTrace] at htr
      injection htr with h₀
      subst h₀
      by_cases hdl : (300 : ℚ) ≤ pollInit.now + D pollInit.i
      · rw [pollStep_eq_timeout hdl] at hready
        injection hready with h'
        exact PollResult.noConfusion h'
      · rw [pollStep_success_zero (not_le.mp hdl) (hP _) rfl] at hready
        exact StepResult.noConfusion hready
    · obtain ⟨hhs, hcs, _, _⟩ := hinv m s htr
      by_cases hdl : (300 : ℚ) ≤ s.now + D s.i
      · rw [pollStep_eq_timeout hdl] at hready
        injection hready with h'
        exact PollResult.noConfusion h'
      · by_cases hwin : 3 < s.now + D s.i - s.healthyStart
        · rw [hhs] at hwin
          exact hwin
        · rw [pollStep_success_pos (not_le.mp hdl) (hP _) (by rw [hcs]; omega) hwin] at hready
          exact StepResult.noConfusion hready
  · intro s htr
    obtain ⟨h1, _, _, h4, _⟩ := hbase s htr
    exact ⟨h1, h4⟩

/-- Claim C1 witness: all pings succeed, each taking 1s, zero jitter; after
iteration 0 the clock sits at the first arrival plus the 200ms minimum and
the backoff attempt counter is 1. -/
theorem claim_C1_ready_after_stability_window_witness :
    pollTrace (fun _ => PingResult.success) (fun _ => (1 : ℚ)) (fun _ => 0) 1 =
      some ⟨6/5, 1, 1, 1, 1⟩ ∧
    ((⟨6/5, 1, 1, 1, 1⟩ : PollState).now = (fun _ => (1 : ℚ)) 0 + backoffMin ∧
      (⟨6/5, 1, 1, 1, 1⟩ : PollState).attempt = 1) := by
  have htr : pollTrace (fun _ => PingResult.success) (fun _ => (1 : ℚ)) (fun _ => 0) 1 =
      some ⟨6/5, 1, 1, 1, 1⟩ := by
    norm_num [pollTrace, pollStep, pollInit, backoffDuration, backoffMin, backoffMax,
      backoffFactor]
  exact ⟨htr, (claim_C1_ready_after_stability_window (fun _ => PingResult.success)
    (fun _ => (1 : ℚ)) (fun _ => 0) (fun _ => rfl)).2.2 _ htr⟩

/-- Claim C2: an unauthorized-classified ping failure makes the iteration
return that very error as the loop result — no backoff sleep, and no further
ping since the run is over — whatever the prior success streak; every other
ping failure continues the loop with the streak zeroed and a backoff sleep,
issuing the next ping. -/
theorem claim_C2_unauthorized_terminal (P : ℕ → PingResult) (D J : ℕ → ℚ) (s : PollState)
    (hdl : s.now + D s.i < 300) :
    (∀ e, P s.i = PingResult.failure e → e.unauthorized = true →
      pollStep P D J s = StepResult.done (PollResult.pingError e) ∧
      ∀ n, pollRun P D J (n + 1) s = some (PollResult.pingError e)) ∧
    (∀ e, P s.i = PingResult.failure e → e.unauthorized = false →
      pollStep P D J s = StepResult.cont ⟨s.now + D s.i + backoffDuration s.attempt (J s.i),
        s.i + 1, 0, s.healthyStart, s.attempt + 1⟩) := by
  constructor
  · intro e hPi hu
    have hstep : pollStep P D J s = StepResult.done (PollResult.pingError e) :=
      pollStep_failure_unauth hdl hPi (by simp [isRetyableError, isUnauthorized, hu])
    refine ⟨hstep, fun n => ?_⟩
    rw [pollRun]
    simp only [hstep]
  · intro e hPi hu
    exact pollStep_failure_retry hdl hPi (by simp [isRetyableError, isUnauthorized, hu])

/-- Claim C2 witness: an unauthorized failure at iteration 3, after a streak
of 5 successes, returns the unauthorized error at once. -/
theorem claim_C2_unauthorized_terminal_witness :
    pollStep (fun _ => PingResult.failure ⟨true⟩) (fun _ => 1) (fun _ => 0)
      ⟨10, 3, 5, 8, 2⟩ = StepResult.done (PollResult.pingError ⟨true⟩) ∧
    pollRun (fun _ => PingResult.failure ⟨true⟩) (fun _ => 1) (fun _ => 0) 5
      ⟨10, 3, 5, 8, 2⟩ = some (PollResult.pingError ⟨true⟩) := by
  have h := (claim_C2_unauthorized_terminal (fun _ => PingResult.failure ⟨true⟩)
    (fun _ => 1) (fun _ => 0) ⟨10, 3, 5, 8, 2⟩
    (by show (10 : ℚ) + 1 < 300; norm_num)).1 ⟨true⟩ rfl rfl
  exact ⟨h.1, h.2 4⟩

/-- Claim C3, counterexample: the claim says no further pings are issued after
the deadline fires, but the deadline is only observed at the select; when a
backoff sleep runs past the 300s mark, the next iteration still spawns its
ping before noticing. Here ping 0 takes 299.9s and fails, the 200ms minimum
sleep ends at 300.1s, and iteration 1 — reached, hence its ping issued — has
its issue time past the deadline, after which the run returns the timeout
error. -/
theorem claim_C3_cex :
    pollTrace (fun _ => PingResult.failure ⟨false⟩)
        (fun i => if i = 0 then 2999/10 else 0) (fun _ => 0) 1 =
      some ⟨3001/10, 1, 0, 0, 1⟩ ∧
    ¬ ((3001 : ℚ)/10 < 300) ∧
    pollRun (fun _ => PingResult.failure ⟨false⟩)
        (fun i => if i = 0 then 2999/10 else 0) (fun _ => 0) 2 pollInit =
      some (PollResult.timeout "Could not ping remote builder within 5 minutes, aborting.") := by
  refine ⟨?_, by norm_num, ?_⟩
  · norm_num [pollTrace, pollStep, pollInit, isRetyableError, isUnauthorized,
      backoffDuration, backoffMin, backoffMax, backoffFactor]
  · norm_num [pollRun, pollStep, pollInit, isRetyableError, isUnauthorized,
      backoffDuration, backoffMin, backoffMax, backoffFactor]

/-- Claim C3 (amended): with nonnegative ping delays, no unauthorized
failures, and no iteration ever declaring readiness (no sufficient healthy
streak), the poller returns the 5-minute timeout error within 1501
iterations; every iteration that continues — i.e. every ping except possibly
the final one in flight when the deadline case is taken — was issued strictly
before the 300s deadline; once the deadline case is taken the loop returns
with no further pings. -/
theorem claim_C3_timeout_after_deadline (P : ℕ → PingResult) (D J : ℕ → ℚ)
    (hD : ∀ i, 0 ≤ D i)
    (hAuth : ∀ i e, P i = PingResult.failure e → e.unauthorized = false)
    (hReady : ∀ k s, pollTrace P D J k = some s →
      pollStep P D J s ≠ StepResult.done PollResult.ready) :
    pollRun P D J 1501 pollInit =
      some (PollResult.timeout "Could not ping remote builder within 5 minutes, aborting.") ∧
    (∀ k s s', pollTrace P D J k = some s → pollStep P D J s = StepResult.cont s' →
      s.now < 300) := by
  have hdone : ∀ k s r, pollTrace P D J k = some s →
      pollStep P D J s = StepResult.done r →
      r = PollResult.timeout "Could not ping remote builder within 5 minutes, aborting." := by
    intro k s r htr hstep
    rcases pollStep_done_inv hstep with h | h | ⟨e, hPi, hu, h⟩
    · exact h
    · exact absurd (h ▸ hstep) (hReady k s htr)
    · exact absurd hu (by simp [hAuth s.i e hPi])
  constructor
  · rcases htr1500 : pollTrace P D J 1500 with _ | s
    · obtain ⟨k, s, r, hk, htr, hstep⟩ := pollTrace_none_done 1500 htr1500
      have hr := hdone k s r htr hstep
      subst hr
      have h1 : pollRun P D J (k + 1) pollInit =
          some (PollResult.timeout
            "Could not ping remote builder within 5 minutes, aborting.") := by
        rw [pollRun_shift k s htr 1, pollRun]
        simp only [hstep]
      exact pollRun_mono (k + 1) pollInit h1 1501 (by omega)
    · have hlb := pollTrace_now_lb hD 1500 s htr1500
      have h300 : (300 : ℚ) ≤ s.now := by
        have : ((1500 : ℕ) : ℚ) * backoffMin = 300 := by norm_num [backoffMin]
        rw [this] at hlb
        exact hlb
      have hdl : (300 : ℚ) ≤ s.now + D s.i := by linarith [hD s.i]
      have hstep : pollStep P D J s = StepResult.done
          (PollResult.timeout
            "Could not ping remote builder within 5 minutes, aborting.") :=
        pollStep_eq_timeout hdl
      have h1 : pollRun P D J (1500 + 1) pollInit =
          some (PollResult.timeout
            "Could not ping remote builder within 5 minutes, aborting.") := by
        rw [pollRun_shift 1500 s htr1500 1, pollRun]
        simp only [hstep]
      exact h1
  · intro k s s' htr hstep
    have h := (pollStep_cont_inv hstep).1
    have := hD s.i
    linarith

/-- Claim C3 witness: every ping fails instantly with a retryable error and
jitter is zero; the run returns the timeout error with fuel 1501. -/
theorem claim_C3_timeout_after_deadline_witness :
    pollRun (fun _ => PingResult.failure ⟨false⟩) (fun _ => 0) (fun _ => 0) 1501 pollInit =
      some (PollResult.timeout "Could not ping remote builder within 5 minutes, aborting.") := by
  refine (claim_C3_timeout_after_deadline (fun _ => PingResult.failure ⟨false⟩)
    (fun _ => 0) (fun _ => 0) (fun _ => le_refl 0) ?_ ?_).1
  · intro i e h
    injection h with h'
    rw [← h']
  · intro k s htr hready
    have h := pollStep_ready_needs_success hready
    simp at h

/-- Claim C7, counterexample: with jitter the backoff durations along a
failing prefix need not be non-decreasing. All pings fail retryably and take
no time; the jitter draw is 9/10 at iteration 1 and 0 elsewhere. The sleep
between iterations 1 and 2 is 59/250 s while the next sleep is 50/250 s —
the durations decrease. -/
theorem claim_C7_cex :
    pollTrace (fun _ => PingResult.failure ⟨false⟩) (fun _ => 0)
        (fun k => if k = 1 then 9/10 else 0) 1 = some ⟨1/5, 1, 0, 0, 1⟩ ∧
    pollTrace (fun _ => PingResult.failure ⟨false⟩) (fun _ => 0)
        (fun k => if k = 1 then 9/10 else 0) 2 = some ⟨109/250, 2, 0, 0, 2⟩ ∧
    pollTrace (fun _ => PingResult.failure ⟨false⟩) (fun _ => 0)
        (fun k => if k = 1 then 9/10 else 0) 3 = some ⟨159/250, 3, 0, 0, 3⟩ ∧
    ((159 : ℚ)/250 - 109/250 < (109 : ℚ)/250 - 1/5) := by
  refine ⟨?_, ?_, ?_, by norm_num⟩ <;>
    norm_num [pollTrace, pollStep, pollInit, isRetyableError, isUnauthorized,
      backoffDuration, backoffMin, backoffMax, backoffFactor]

/-- Claim C7 (amended): along a prefix of N retryable failures,
consecutiveSuccesses stays 0 and the backoff attempt counter and ping index
track the iteration; the sleep of iteration k of the prefix is the backoff
duration for attempt k, which always lies within [200ms, 2s]; the pre-jitter
envelope min * 1.2^attempt (the duration at jitter draw 1) is non-decreasing
in the attempt — but the jittered durations themselves need not be (see the
counterexample). -/
theorem claim_C7_failing_prefix_backoff (P : ℕ → PingResult) (D J : ℕ → ℚ) (N : ℕ)
    (hP : ∀ i, i < N → P i = PingResult.failure ⟨false⟩) :
    (∀ k, k ≤ N → ∀ s, pollTrace P D J k = some s →
      s.consecutiveSuccesses = 0 ∧ s.attempt = k ∧ s.i = k) ∧
    (∀ k, k < N → ∀ s s', pollTrace P D J k = some s →
      pollStep P D J s = StepResult.cont s' →
      s'.now = s.now + D k + backoffDuration k (J k)) ∧
    (∀ a : ℕ, ∀ j : ℚ, backoffMin ≤ backoffDuration a j ∧ backoffDuration a j ≤ backoffMax) ∧
    (∀ a : ℕ, backoffDuration a 1 ≤ backoffDuration (a + 1) 1) := by
  have hinv : ∀ k, k ≤ N → ∀ s, pollTrace P D J k = some s →
      s.consecutiveSuccesses = 0 ∧ s.attempt = k ∧ s.i = k := by
    intro k
    induction k with
    | zero =>
      intro _ s htr
      rw [pollTrace] at htr
      injection htr with h₀
      rw [← h₀]
      exact ⟨rfl, rfl, rfl⟩
    | succ m ih =>
      intro hk s htr
      obtain ⟨s₁, htr₁, hstep⟩ := pollTrace_succ_some.mp htr
      obtain ⟨hcs, hatt, hi⟩ := ih (by omega) s₁ htr₁
      have hdl := (pollStep_cont_inv hstep).1
      have hPi : P s₁.i = PingResult.failure ⟨false⟩ := by
        rw [hi]
        exact hP m (by omega)
      rw [pollStep_failure_retry hdl hPi (by simp [isRetyableError, isUnauthorized])] at hstep
      injection hstep with h'
      rw [← h']
      exact ⟨rfl, by rw [hatt], by rw [hi]⟩
  refine ⟨hinv, ?_, backoffDuration_bounds, backoffDuration_envelope_mono⟩
  intro k hk s s' htr hstep
  obtain ⟨hcs, hatt, hi⟩ := hinv k (by omega) s htr
  have hdl := (pollStep_cont_inv hstep).1
  have hPi : P s.i = PingResult.failure ⟨false⟩ := by
    rw [hi]
    exact hP k hk
  rw [pollStep_failure_retry hdl hPi (by simp [isRetyableError, isUnauthorized])] at hstep
  injection hstep with h'
  rw [← h', hi, hatt]

/-- Claim C7 witness: two instant retryable failures with zero jitter; after
the prefix the streak is 0 and the attempt counter is 2, and the backoff
bounds and envelope monotonicity hold at concrete points. -/
theorem claim_C7_failing_prefix_backoff_witness :
    pollTrace (fun _ => PingResult.failure ⟨false⟩) (fun _ => 0) (fun _ => 0) 2 =
      some ⟨2/5, 2, 0, 0, 2⟩ ∧
    ((⟨2/5, 2, 0, 0, 2⟩ : PollState).consecutiveSuccesses = 0 ∧
      (⟨2/5, 2, 0, 0, 2⟩ : PollState).attempt = 2 ∧
      (⟨2/5, 2, 0, 0, 2⟩ : PollState).i = 2) ∧
    (backoffMin ≤ backoffDuration 3 (1/2) ∧ backoffDuration 3 (1/2) ≤ backoffMax) ∧
    backoffDuration 4 1 ≤ backoffDuration 5 1 := by
  have h := claim_C7_failing_prefix_backoff (fun _ => PingResult.failure ⟨false⟩)
    (fun _ => 0) (fun _ => 0) 2 (fun _ _ => rfl)
  have htr : pollTrace (fun _ => PingResult.failure ⟨false⟩) (fun _ => 0) (fun _ => 0) 2 =
      some ⟨2/5, 2, 0, 0, 2⟩ := by
    norm_num [pollTrace, pollStep, pollInit, isRetyableError, isUnauthorized,
      backoffDuration, backoffMin, backoffMax, backoffFactor]
  exact ⟨htr, h.1 2 (le_refl 2) _ htr, h.2.2.1 3 (1/2), h.2.2.2 4⟩
